import Mathlib

/-!
Verification of the Auditora instrumentation core.

This file gives a shallow embedding of the event-recording and
context-propagation code of the repository:

* `src/auditora/adats/monitor.py` (`DefaultMonitor`, `OptimizedMonitor`),
* `src/auditora/aspects/events/record.py` (`EventRecord`),
* `src/auditora/core/paragon.py` (`Paragon`),
* `src/auditora/core/bifrost.py` (`bifrost_sync` / `bifrost_async`),
* `src/auditora/decorators/sentinel.py` (collaborator selection).

Python values appearing in events are embedded by the types `PyScalar`,
`PyVal1`, `PyVal` below; Python floats are modelled exactly as rationals
(`ℚ`), Python dicts as insertion-ordered association lists.  The external
MessagePack library used by `OptimizedMonitor` is modelled by a
self-framing tag/payload byte code (`encScalar` … `decVal`) that keeps the
behaviours the code relies on: every serialized object is a self-delimiting
prefix, a stream is decoded one object at a time together with the number of
bytes consumed (`Unpacker.tell`), an invalid leading tag raises a format
error (msgpack `FormatError`, a subclass of `UnpackException`), a truncated
payload yields no object (msgpack `OutOfData`, surfacing as `StopIteration`
when iterating the `Unpacker`), and `unpackb` fails with `ExtraData` when
bytes remain after the first object.  Exceptions raised by the Python code
are modelled with `Except PyErr`.
-/

/-- Python exception kinds raised by the modelled code paths. -/
inductive PyErr : Type where
  /-- `AttributeError`, e.g. reading a missing attribute of a `NamedTuple`
      or calling `.get` on a non-dict. -/
  | attributeError : PyErr
  /-- `IndexError`, e.g. `events[-1]` on an empty list. -/
  | indexError : PyErr
  /-- `TypeError`, e.g. tuple-unpacking the bare `None` returned when
      `_unpack_with_offset` falls through its `for` loop. -/
  | typeError : PyErr
  /-- `KeyError` from a dict subscript with a missing key. -/
  | keyError : PyErr
  /-- `ZeroDivisionError` from `count / capacity` with capacity 0. -/
  | zeroDivisionError : PyErr
  /-- `msgpack.exceptions.ExtraData`: `unpackb` input had trailing bytes. -/
  | extraData : PyErr
  /-- `msgpack.exceptions.FormatError`: invalid format byte. -/
  | formatError : PyErr
  /-- Truncated msgpack input handed to `unpackb`. -/
  | outOfData : PyErr
  /-- `RuntimeError` raised by `Paragon.get_context` when no context is
      active. -/
  | notActive : PyErr
deriving DecidableEq, Repr

/-- Scalar Python values carried by events: `None`, booleans, ints, floats
(modelled exactly as `ℚ`) and strings. -/
inductive PyScalar : Type where
  | pyNone : PyScalar
  | bool (b : Bool) : PyScalar
  | int (i : Int) : PyScalar
  | num (q : ℚ) : PyScalar
  | str (s : String) : PyScalar
deriving DecidableEq, Repr

/-- A metadata mapping: an insertion-ordered Python dict with string keys
and scalar values (the shape `track(**metadata)` receives in the claims
under verification). -/
abbrev FlatEntries := List (String × PyScalar)

/-- A value stored inside a top-level event dict: either a scalar or a flat
metadata dict. -/
inductive PyVal1 : Type where
  | scalar (x : PyScalar) : PyVal1
  | dict (kvs : FlatEntries) : PyVal1
deriving DecidableEq, Repr

/-- A top-level decoded Python object: a scalar, or a dict whose values may
themselves contain one nested (metadata) dict — exactly the shape of the
serialized events of `OptimizedMonitor`. -/
inductive PyVal : Type where
  | scalar (x : PyScalar) : PyVal
  | dict (kvs : List (String × PyVal1)) : PyVal
deriving DecidableEq, Repr

/-- Lookup in an association list with Python-dict semantics: a later
binding of the same key overwrites an earlier one. -/
def entryLookup {α : Type} : List (String × α) → String → Option α
  | [], _ => none
  | (k, v) :: rest, key =>
    match entryLookup rest key with
    | some r => some r
    | none => if k = key then some v else none

/-- Key lookup on a decoded Python object, as used by
`_deserialize_to_readable_format`; only dicts support it. -/
def PyVal.lookup : PyVal → String → Option PyVal1
  | .scalar _, _ => none
  | .dict kvs, key => entryLookup kvs key

/-! ### Model of the MessagePack codec

The code stores each event with `msgpack.packb(event_data, …)` and decodes
the stream one object at a time with `msgpack.Unpacker`.  The model below
uses one abstract "byte" (`Nat`) per tag, count or numeric payload and one
byte per string character; what matters for the verified claims is framing
and the error taxonomy, which mirror the library behaviours listed in the
header comment. -/

/-- Injective code of a Python int in one abstract byte. -/
def intCode : Int → Nat
  | .ofNat n => 2 * n
  | .negSucc n => 2 * n + 1

/-- Inverse of `intCode`. -/
def intDecode (c : Nat) : Int :=
  if c % 2 = 0 then .ofNat (c / 2) else .negSucc (c / 2)

/-- Injective code of a Python float (modelled as `ℚ`) in one abstract
byte, via the Cantor pairing of numerator and denominator. -/
def ratCode (q : ℚ) : Nat := Nat.pair (intCode q.num) q.den

/-- Inverse of `ratCode`. -/
def ratDecode (c : Nat) : ℚ := mkRat (intDecode (Nat.unpair c).1) (Nat.unpair c).2

/-- String payload: one abstract byte per character. -/
def strBytes (s : String) : List Nat := s.data.map Char.toNat

/-- Inverse of `strBytes`. -/
def strOfNats (ns : List Nat) : String := ⟨ns.map Char.ofNat⟩

/-- Serialization of a scalar: tag byte, then payload.  Tags 0–4 are
scalars, tag 5 opens a map, tags 6 and above are invalid format bytes
(as msgpack reserves 0xc1). -/
def encScalar : PyScalar → List Nat
  | .pyNone => [0]
  | .bool b => [1, cond b 1 0]
  | .int i => [2, intCode i]
  | .num q => [3, ratCode q]
  | .str s => 4 :: s.length :: strBytes s

/-- Serialization of a flat (metadata) dict body: key/value pairs in
insertion order. -/
def encFlatEntries : FlatEntries → List Nat
  | [] => []
  | (k, x) :: rest => encScalar (.str k) ++ encScalar x ++ encFlatEntries rest

/-- Serialization of a dict-member value. -/
def encVal1 : PyVal1 → List Nat
  | .scalar x => encScalar x
  | .dict kvs => 5 :: kvs.length :: encFlatEntries kvs

/-- Serialization of a top-level dict body. -/
def encEntries1 : List (String × PyVal1) → List Nat
  | [] => []
  | (k, v) :: rest => encScalar (.str k) ++ encVal1 v ++ encEntries1 rest

/-- Serialization of a top-level Python object (model of
`msgpack.packb`): a map is tag 5, its entry count, then its entries. -/
def encVal : PyVal → List Nat
  | .scalar x => encScalar x
  | .dict kvs => 5 :: kvs.length :: encEntries1 kvs

/-- Result of decoding one object from the front of a byte stream:
the object together with the bytes consumed, or a truncation
(`incomplete`, msgpack `OutOfData`), or an invalid format byte
(`formatError`, msgpack `FormatError`). -/
inductive DR (α : Type) : Type where
  | ok (v : α) (consumed : Nat) : DR α
  | incomplete : DR α
  | formatError : DR α
deriving DecidableEq, Repr

/-- Map a function over the decoded object of a `DR`. -/
def DR.map {α β : Type} (f : α → β) : DR α → DR β
  | .ok v c => .ok (f v) c
  | .incomplete => .incomplete
  | .formatError => .formatError

/-- Decode one scalar from the front of a byte stream. -/
def decScalar (bs : List Nat) : DR PyScalar :=
  match bs with
  | [] => .incomplete
  | t :: rest =>
    if t = 0 then .ok .pyNone 1
    else if t = 1 then
      match rest with
      | [] => .incomplete
      | b :: _ => .ok (.bool (b == 1)) 2
    else if t = 2 then
      match rest with
      | [] => .incomplete
      | c :: _ => .ok (.int (intDecode c)) 2
    else if t = 3 then
      match rest with
      | [] => .incomplete
      | c :: _ => .ok (.num (ratDecode c)) 2
    else if t = 4 then
      match rest with
      | [] => .incomplete
      | n :: bs2 =>
        if n ≤ bs2.length then .ok (.str (strOfNats (bs2.take n))) (2 + n)
        else .incomplete
    else .formatError

/-- Decode `n` key/value pairs of a flat dict.  A key that is not a string
is rejected as a format error (the serialized events only ever carry string
keys). -/
def decFlatEntries : Nat → List Nat → DR FlatEntries
  | 0, _ => .ok [] 0
  | n + 1, bs =>
    match decScalar bs with
    | .ok (.str k) c =>
      match decScalar (bs.drop c) with
      | .ok x c2 =>
        match decFlatEntries n (bs.drop (c + c2)) with
        | .ok rest c3 => .ok ((k, x) :: rest) (c + c2 + c3)
        | .incomplete => .incomplete
        | .formatError => .formatError
      | .incomplete => .incomplete
      | .formatError => .formatError
    | .ok _ _ => .formatError
    | .incomplete => .incomplete
    | .formatError => .formatError

/-- Decode a dict-member value: a nested flat dict or a scalar. -/
def decVal1 (bs : List Nat) : DR PyVal1 :=
  match bs with
  | [] => .incomplete
  | t :: tail =>
    if t = 5 then
      match tail with
      | [] => .incomplete
      | n :: rest =>
        match decFlatEntries n rest with
        | .ok kvs c => .ok (.dict kvs) (2 + c)
        | .incomplete => .incomplete
        | .formatError => .formatError
    else DR.map .scalar (decScalar (t :: tail))

/-- Decode `n` key/value pairs of a top-level dict. -/
def decEntries1 : Nat → List Nat → DR (List (String × PyVal1))
  | 0, _ => .ok [] 0
  | n + 1, bs =>
    match decScalar bs with
    | .ok (.str k) c =>
      match decVal1 (bs.drop c) with
      | .ok v c2 =>
        match decEntries1 n (bs.drop (c + c2)) with
        | .ok rest c3 => .ok ((k, v) :: rest) (c + c2 + c3)
        | .incomplete => .incomplete
        | .formatError => .formatError
      | .incomplete => .incomplete
      | .formatError => .formatError
    | .ok _ _ => .formatError
    | .incomplete => .incomplete
    | .formatError => .formatError

/-- Decode one top-level object from the front of a byte stream (model of
one step of `msgpack.Unpacker`). -/
def decVal (bs : List Nat) : DR PyVal :=
  match bs with
  | [] => .incomplete
  | t :: tail =>
    if t = 5 then
      match tail with
      | [] => .incomplete
      | n :: rest =>
        match decEntries1 n rest with
        | .ok kvs c => .ok (.dict kvs) (2 + c)
        | .incomplete => .incomplete
        | .formatError => .formatError
    else DR.map .scalar (decScalar (t :: tail))

/-- Model of `msgpack.unpackb`: decode one object and require the whole
input to be consumed, failing with `ExtraData` otherwise. -/
def unpackb (bs : List Nat) : Except PyErr PyVal :=
  match decVal bs with
  | .ok v c => if c = bs.length then .ok v else .error .extraData
  | .incomplete => .error .outOfData
  | .formatError => .error .formatError

/-! ### `EventRecord` and the eager monitor (`DefaultMonitor`)

From `src/auditora/aspects/events/record.py` and
`src/auditora/adats/monitor.py`.  Each tracking method receives the current
clock readings (`time.perf_counter()` / `time.time()`) as explicit
arguments. -/

/-- `EventRecord` from `record.py`: a `NamedTuple` with exactly the fields
`etype`, `timestamp`, `metadata`.  In particular it has no field `details`;
`DefaultMonitor.track` nevertheless writes to `event_record.details`,
which raises `AttributeError` at run time. -/
structure EventRecord : Type where
  etype : String
  timestamp : ℚ
  metadata : FlatEntries
deriving DecidableEq, Repr

/-- Append to a `collections.deque` with a maximum length: when full, the
oldest entries are dropped from the front. -/
def dequeAppend (maxlen : Nat) (q : List EventRecord) (x : EventRecord) : List EventRecord :=
  let q2 := q ++ [x]
  if maxlen < q2.length then q2.drop (q2.length - maxlen) else q2

/-- State of `DefaultMonitor`: preallocated timestamp array
(`array('d', [0.0] * max_buffer_size)`), bounded record log
(`deque(maxlen=max_buffer_size)`) and metrics dict. -/
structure DefaultMonitor : Type where
  start_time : ℚ
  event_count : Nat
  max_buffer_size : Nat
  events_buffer : List ℚ
  events_metadata : List EventRecord
  metrics : List (String × ℚ)
deriving DecidableEq, Repr

/-- `DefaultMonitor.__init__`. -/
def DefaultMonitor.init (start_time : ℚ) (max_buffer_size : Nat) : DefaultMonitor :=
  { start_time := start_time
    event_count := 0
    max_buffer_size := max_buffer_size
    events_buffer := List.replicate max_buffer_size 0
    events_metadata := []
    metrics := [] }

/-- `DefaultMonitor.track`.  With capacity reached it returns before any
mutation (silent drop).  Otherwise it writes the elapsed time into the
preallocated array, builds the `EventRecord` and — when a duration was
passed — evaluates `event_record.details`, which does not exist on the
`NamedTuple` and raises `AttributeError` (in Python the timestamp-array
write persists; no record is appended and the count is unchanged).
The final `update_metadata(metadata)` merges the record's own metadata
dict into itself and is a no-op. -/
def DefaultMonitor.track (st : DefaultMonitor) (now : ℚ) (event : String)
    (duration : Option ℚ) (metadata : FlatEntries) : Except PyErr DefaultMonitor :=
  if st.max_buffer_size ≤ st.event_count then .ok st
  else
    let elapsed := now - st.start_time
    let st1 := { st with events_buffer := st.events_buffer.set st.event_count elapsed }
    let event_record : EventRecord :=
      { etype := event, timestamp := elapsed, metadata := metadata }
    match duration with
    | some _ => .error .attributeError
    | none =>
      .ok { st1 with
            events_metadata :=
              dequeAppend st1.max_buffer_size st1.events_metadata event_record
            event_count := st1.event_count + 1 }

/-- `DefaultMonitor.start_timer`: records `"<event>_started"` and returns
the current monotonic time. -/
def DefaultMonitor.start_timer (st : DefaultMonitor) (now : ℚ) (event : String) :
    Except PyErr (ℚ × DefaultMonitor) :=
  (st.track now (event ++ "_started") none []).map (fun st1 => (now, st1))

/-- `DefaultMonitor.stop_timer`: computes `duration = now − start_time` and
tracks `"<event>_completed"` with that duration. -/
def DefaultMonitor.stop_timer (st : DefaultMonitor) (now : ℚ) (event : String)
    (start_time : ℚ) (metadata : FlatEntries) : Except PyErr (ℚ × DefaultMonitor) :=
  let duration := now - start_time
  (st.track now (event ++ "_completed") (some duration) metadata).map
    (fun st1 => (duration, st1))

/-- Python dict assignment `d[k] = v`: overwrite in place, else append. -/
def dictSetQ : List (String × ℚ) → String → ℚ → List (String × ℚ)
  | [], k, v => [(k, v)]
  | (k1, v1) :: rest, k, v =>
    if k1 = k then (k1, v) :: rest else (k1, v1) :: dictSetQ rest k v

/-- `DefaultMonitor.increment_metric`. -/
def DefaultMonitor.increment_metric (st : DefaultMonitor) (name : String)
    (value : ℚ) : DefaultMonitor :=
  { st with metrics :=
      dictSetQ st.metrics name (((entryLookup st.metrics name).getD 0) + value) }

/-- `DefaultMonitor.get_events`: `list(self._events_metadata)`. -/
def DefaultMonitor.get_events (st : DefaultMonitor) : List EventRecord :=
  st.events_metadata

/-- Count occurrences of a key, keeping first-seen order. -/
def bumpCount : List (String × Nat) → String → List (String × Nat)
  | [], k => [(k, 1)]
  | (k1, c) :: rest, k =>
    if k1 = k then (k1, c + 1) :: rest else (k1, c) :: bumpCount rest k

/-- Per-type counts in first-seen order. -/
def countByType (events : List EventRecord) : List (String × Nat) :=
  events.foldl (fun acc e => bumpCount acc e.etype) []

/-- `DefaultMonitor._count_events_by_type`.  The very first statement
evaluates `events[-1]` (for the `isinstance(events[-1], dict)` test), which
raises `IndexError` when no event has been recorded.  For `DefaultMonitor`
the stored events are `EventRecord` objects, never dicts, so the dict
branch is not taken. -/
def DefaultMonitor.count_events_by_type (st : DefaultMonitor) :
    Except PyErr (List (String × Nat)) :=
  let events := st.get_events
  match events.getLast? with
  | none => .error .indexError
  | some _ => .ok (countByType events)

/-- Result type of `DefaultMonitor.get_summary` (the returned dict). -/
structure Summary : Type where
  total_events : Nat
  total_metrics : Nat
  events_by_type : List (String × Nat)
  metrics : List (String × ℚ)
  buffer_usage : ℚ
deriving DecidableEq, Repr

/-- `DefaultMonitor.get_summary`.  `buffer_usage` is
`event_count / max_buffer_size` (a `ZeroDivisionError` for capacity 0); the
metrics snapshot is `self._metrics.copy()`, an independent copy — in this
pure model, the value itself. -/
def DefaultMonitor.get_summary (st : DefaultMonitor) : Except PyErr Summary := do
  let events_list := st.get_events
  let event_types ← st.count_events_by_type
  if st.max_buffer_size = 0 then .error .zeroDivisionError
  else
    .ok { total_events := events_list.length
          total_metrics := st.metrics.length
          events_by_type := event_types
          metrics := st.metrics
          buffer_usage := (st.event_count : ℚ) / (st.max_buffer_size : ℚ) }

/-! ### The deferred monitor (`OptimizedMonitor`)

State and operations of `OptimizedMonitor` from
`src/auditora/adats/monitor.py`.  `parse_calls` is a ghost counter counting
the invocations of `_parse_buffer`, used to express "without re-parsing";
it shadows no Python state and is incremented exactly where the Python
code calls `self._parse_buffer()`. -/

structure OptimizedMonitor : Type where
  start_time : ℚ
  event_count : Nat
  max_buffer_size : Nat
  /-- The append-only serialized byte stream (`bytearray`). -/
  events_buffer : List Nat
  /-- Cached parsed events (`_pending_events`). -/
  pending_events : List PyVal
  /-- Serialized header written by `flush_to_disk`. -/
  buffer_header : List Nat
  /-- Ghost: number of `_parse_buffer` invocations. -/
  parse_calls : Nat
deriving DecidableEq, Repr

/-- `OptimizedMonitor.__init__`; `created_at` is the wall-clock
`time.time()` captured in the header. -/
def OptimizedMonitor.init (start_time created_at : ℚ) (max_buffer_size : Nat) :
    OptimizedMonitor :=
  { start_time := start_time
    event_count := 0
    max_buffer_size := max_buffer_size
    events_buffer := []
    pending_events := []
    buffer_header :=
      encVal (.dict [("version", .scalar (.int 1)),
                     ("created_at", .scalar (.num created_at)),
                     ("format", .scalar (.str "msgpack"))])
    parse_calls := 0 }

/-- The entries of the compact event dict built by `_serialize_event`:
short keys `e`, `t`, `ts`, plus `d` when a duration was passed and `m`
when the metadata dict is non-empty (an empty dict is falsy in Python). -/
def eventEntries (event : String) (elapsed wall : ℚ) (duration : Option ℚ)
    (metadata : FlatEntries) : List (String × PyVal1) :=
  ("e", .scalar (.str event)) ::
  ("t", .scalar (.num elapsed)) ::
  ("ts", .scalar (.num wall)) ::
  ((match duration with
    | some d => [("d", PyVal1.scalar (.num d))]
    | none => []) ++
   (match metadata with
    | [] => []
    | _ => [("m", PyVal1.dict metadata)]))

/-- The compact event dict built by `_serialize_event`. -/
def eventData (event : String) (elapsed wall : ℚ) (duration : Option ℚ)
    (metadata : FlatEntries) : PyVal :=
  .dict (eventEntries event elapsed wall duration metadata)

/-- `OptimizedMonitor._serialize_event`: pack the compact event dict. -/
def OptimizedMonitor.serialize_event (st : OptimizedMonitor) (event : String)
    (duration : Option ℚ) (metadata : FlatEntries) (now wall : ℚ) : List Nat :=
  encVal (eventData event (now - st.start_time) wall duration metadata)

/-- `OptimizedMonitor.track`: silent drop at capacity, otherwise serialize
immediately and append to the byte stream.  Note that the cached
`_pending_events` is NOT invalidated. -/
def OptimizedMonitor.track (st : OptimizedMonitor) (now wall : ℚ) (event : String)
    (duration : Option ℚ) (metadata : FlatEntries) : OptimizedMonitor :=
  if st.max_buffer_size ≤ st.event_count then st
  else
    { st with
      events_buffer := st.events_buffer ++ st.serialize_event event duration metadata now wall
      event_count := st.event_count + 1 }

/-- What `_unpack_with_offset(data)` evaluates to. -/
inductive UnpackOffset : Type where
  /-- The tuple `(event_data, bytes_consumed)` for a decoded object. -/
  | pair (v : PyVal) (consumed : Nat) : UnpackOffset
  /-- The tuple `(None, len(data))` returned by the
      `except msgpack.UnpackException` handler. -/
  | nonePair (consumed : Nat) : UnpackOffset
  /-- Bare `None`: the iteration over the `Unpacker` yielded nothing
      (truncated data, `StopIteration`), so the function falls through its
      `for` loop and returns no tuple at all. -/
  | bare : UnpackOffset
deriving DecidableEq, Repr

/-- `OptimizedMonitor._unpack_with_offset`. -/
def OptimizedMonitor.unpack_with_offset (data : List Nat) : UnpackOffset :=
  match decVal data with
  | .ok v c => .pair v c
  | .incomplete => .bare
  | .formatError => .nonePair data.length

/-- Expansion of compact keys performed by
`_deserialize_to_readable_format` on a decoded event dict. -/
def readableDict (kvs : List (String × PyVal1)) : PyVal :=
  .dict (("event", (entryLookup kvs "e").getD (.scalar (.str ""))) ::
         ("timestamp", (entryLookup kvs "t").getD (.scalar (.num 0))) ::
         ("absolute_timestamp", (entryLookup kvs "ts").getD (.scalar (.num 0))) ::
         ((match entryLookup kvs "d" with
           | some dv => [("duration", dv)]
           | none => []) ++
          (match entryLookup kvs "m" with
           | some mv => [("metadata", mv)]
           | none => [])))

/-- `OptimizedMonitor._deserialize_to_readable_format`: calling `.get` on
a non-dict object raises `AttributeError` (propagated: the enclosing
`except` clause of `_parse_buffer` catches only `UnpackException` and
`ValueError`). -/
def OptimizedMonitor.deserialize_to_readable_format (event_data : PyVal) :
    Except PyErr PyVal :=
  match event_data with
  | .dict kvs => .ok (readableDict kvs)
  | .scalar _ => .error .attributeError

/-- The `while offset < len(buffer_view)` loop of
`_parse_buffer`, with fuel for structural recursion (one unit per decoded
object; each object consumes at least one byte, so fuel equal to the
buffer length is always sufficient and the fuel-exhaustion branch is
unreachable at the call site below).  A `(None, …)` tuple breaks the loop
(partial result); a bare `None` return is tuple-unpacked by
`event_data, bytes_consumed = …`, raising an uncaught `TypeError`. -/
def parseLoop : Nat → List Nat → Except PyErr (List PyVal)
  | _, [] => .ok []
  | 0, _ :: _ => .ok []
  | fuel + 1, b :: bs =>
    match OptimizedMonitor.unpack_with_offset (b :: bs) with
    | .pair v _c =>
      match v with
      | .scalar .pyNone => .ok []
      | _ => do
        let fe ← OptimizedMonitor.deserialize_to_readable_format v
        let tail ← parseLoop fuel ((b :: bs).drop
          (match OptimizedMonitor.unpack_with_offset (b :: bs) with
           | .pair _ c => c
           | _ => 0))
        .ok (fe :: tail)
    | .nonePair _ => .ok []
    | .bare => .error .typeError

/-- `OptimizedMonitor._parse_buffer`. -/
def OptimizedMonitor.parse_buffer (bs : List Nat) : Except PyErr (List PyVal) :=
  if bs = [] then .ok [] else parseLoop bs.length bs

/-- `OptimizedMonitor.get_events`: lazy, memoized on the emptiness of
`_pending_events`. -/
def OptimizedMonitor.get_events (st : OptimizedMonitor) :
    Except PyErr (List PyVal × OptimizedMonitor) :=
  match st.pending_events with
  | [] => do
    let evs ← OptimizedMonitor.parse_buffer st.events_buffer
    .ok (evs, { st with pending_events := evs, parse_calls := st.parse_calls + 1 })
  | p => .ok (p, st)

/-- `OptimizedMonitor.clear_buffer`. -/
def OptimizedMonitor.clear_buffer (st : OptimizedMonitor) : OptimizedMonitor :=
  { st with events_buffer := [], pending_events := [], event_count := 0 }

/-- `OptimizedMonitor.flush_to_disk`: the written file is header, then the
packed `event_count` record, then the raw byte stream; the in-memory
buffer is cleared afterwards.  Returns the file contents and the new
state. -/
def OptimizedMonitor.flush_to_disk (st : OptimizedMonitor) :
    List Nat × OptimizedMonitor :=
  (st.buffer_header ++
     encVal (.dict [("event_count", .scalar (.int st.event_count))]) ++
     st.events_buffer,
   st.clear_buffer)

/-- `OptimizedMonitor.load_from_disk`.  Faithful to the code: after the
header is read with an exact length, `msgpack.unpackb(f.read())` is
applied to ALL remaining bytes of the file (count record and raw stream
together), and the subsequent `f.read()` for the buffer yields no bytes. -/
def OptimizedMonitor.load_from_disk (st : OptimizedMonitor) (file : List Nat) :
    Except PyErr OptimizedMonitor := do
  let header_data := file.take st.buffer_header.length
  let _header ← unpackb header_data
  let event_count_data ← unpackb (file.drop st.buffer_header.length)
  let st1 := { st with events_buffer := [] }
  match event_count_data.lookup "event_count" with
  | some (.scalar (.int n)) =>
    .ok { st1 with event_count := n.toNat, pending_events := [] }
  | some _ => .error .typeError
  | none => .error .keyError

/-! ### Context storage (`Paragon`), scope guard (`bifrost`) and the
`sentinel` decorator's collaborator selection

From `src/auditora/core/paragon.py`, `src/auditora/core/bifrost.py` and
`src/auditora/decorators/sentinel.py`.  A collaborator object (session /
monitor / report "Adat") is opaque to these modules; it is modelled by
`Collab`. -/

/-- An opaque collaborator reference as seen by `Paragon` and `sentinel`:
Python `None`, a caller-supplied object (identified by a tag), or one of
the freshly constructed defaults of `sentinel`. -/
inductive Collab : Type where
  | pyNone : Collab
  | given (tag : Nat) : Collab
  | freshSession (session_id : Option String) : Collab
  | freshMonitor : Collab
  | freshReport : Collab
deriving DecidableEq, Repr

/-- The dict `{'session': …, 'monitor': …, 'report': …}` stored in the
context variable. -/
structure CtxEntry : Type where
  session : Collab
  monitor : Collab
  report : Collab
deriving DecidableEq, Repr

/-- State of `Paragon`'s `ContextVar` for one logical execution unit:
its current value (`None` by default) plus a ghost counter of
`reset_context` calls.  A token is the `Token.old_value` captured by
`ContextVar.set`: the value the variable held before that `set`. -/
structure ParagonState : Type where
  context : Option CtxEntry
  reset_count : Nat
deriving DecidableEq, Repr

/-- `Paragon.set_context`: store the role dict, returning the restore
token (the prior value). -/
def Paragon.set_context (st : ParagonState) (session monitor report : Collab) :
    Option CtxEntry × ParagonState :=
  (st.context, { st with context := some ⟨session, monitor, report⟩ })

/-- `Paragon.get_context`: the active entry, or `RuntimeError` ("Context
not active") when none was activated. -/
def Paragon.get_context (st : ParagonState) : Except PyErr CtxEntry :=
  match st.context with
  | none => .error .notActive
  | some c => .ok c

/-- `Paragon.reset_context(token)`: `ContextVar.reset` reinstates the
value captured by the token. -/
def Paragon.reset_context (st : ParagonState) (token : Option CtxEntry) :
    ParagonState :=
  { context := token, reset_count := st.reset_count + 1 }

/-- The spec's `activate(entry)`: `set_context` with the entry's three
roles. -/
def activate (st : ParagonState) (entry : CtxEntry) :
    Option CtxEntry × ParagonState :=
  Paragon.set_context st entry.session entry.monitor entry.report

/-- `bifrost_sync`: capture a token with `set_context`, run the guarded
body, and — in a `finally` block, hence on normal return and on a raised
error alike — `reset_context` with the captured token.  The body is an
arbitrary state transformer that may return a value or raise. -/
def bifrost_sync {α : Type} (session monitor report : Collab)
    (body : ParagonState → Except PyErr α × ParagonState) (st : ParagonState) :
    Except PyErr α × ParagonState :=
  let entered := Paragon.set_context st session monitor report
  let outcome := body entered.2
  (outcome.1, Paragon.reset_context outcome.2 entered.1)

/-- `bifrost_async`: identical token/finally structure in the
`asynccontextmanager` variant. -/
def bifrost_async {α : Type} (session monitor report : Collab)
    (body : ParagonState → Except PyErr α × ParagonState) (st : ParagonState) :
    Except PyErr α × ParagonState :=
  let entered := Paragon.set_context st session monitor report
  let outcome := body entered.2
  (outcome.1, Paragon.reset_context outcome.2 entered.1)

/-- How an optional caller-supplied argument reaches the context: `None`
stays `None`, anything else is the given object. -/
def argCollab : Option Nat → Collab
  | some tag => .given tag
  | none => .pyNone

/-- The collaborator triple computed at decoration time by `sentinel`
(lines 35–37 of `sentinel.py`), translated condition-for-condition:

* `session_obj = session if session is not None else DefaultSession(session_id=session_id)`
* `monitor_obj = monitor if session is not None else DefaultMonitor()`
* `report_obj  = report  if session is not None else DefaultReport()`

Note that the conditions for `monitor_obj` and `report_obj` test
`session`, not `monitor`/`report`. -/
def sentinel (session monitor report : Option Nat) (session_id : Option String) :
    CtxEntry :=
  { session :=
      match session with
      | some s => .given s
      | none => .freshSession session_id
    monitor := if session.isSome then argCollab monitor else .freshMonitor
    report := if session.isSome then argCollab report else .freshReport }

/-! ### Specification-side descriptions of serialized events and eager
record calls, used to state the theorems -/

/-- The data determining one serialized deferred-buffer event: name,
elapsed monotonic time, wall-clock time, optional duration, metadata. -/
structure EventSpec : Type where
  event : String
  elapsed : ℚ
  wall : ℚ
  duration : Option ℚ
  metadata : FlatEntries
deriving DecidableEq, Repr

/-- The bytes `_serialize_event` appends for one event. -/
def encodeEvent (s : EventSpec) : List Nat :=
  encVal (eventData s.event s.elapsed s.wall s.duration s.metadata)

/-- A whole byte stream of consecutively tracked events. -/
def encodeStream : List EventSpec → List Nat
  | [] => []
  | s :: rest => encodeEvent s ++ encodeStream rest

/-- The readable dict `get_events` yields for one event: full field names,
`duration` present iff one was recorded, `metadata` present iff non-empty. -/
def readableOf (s : EventSpec) : PyVal :=
  .dict (("event", .scalar (.str s.event)) ::
         ("timestamp", .scalar (.num s.elapsed)) ::
         ("absolute_timestamp", .scalar (.num s.wall)) ::
         ((match s.duration with
           | some d => [("duration", PyVal1.scalar (.num d))]
           | none => []) ++
          (match s.metadata with
           | [] => []
           | _ => [("metadata", PyVal1.dict s.metadata)])))

/-- One duration-free eager `record` call: the clock reading at the call,
the event name and the metadata. -/
structure RecCall : Type where
  now : ℚ
  event : String
  metadata : FlatEntries
deriving DecidableEq, Repr

/-- Run a sequence of duration-free `track` calls on a `DefaultMonitor`. -/
def runTrack : DefaultMonitor → List RecCall → Except PyErr DefaultMonitor
  | st, [] => .ok st
  | st, c :: cs => (st.track c.now c.event none c.metadata).bind fun st1 => runTrack st1 cs

/-- The record a within-capacity duration-free `track` call appends. -/
def recordOf (start_time : ℚ) (c : RecCall) : EventRecord :=
  { etype := c.event, timestamp := c.now - start_time, metadata := c.metadata }
/-! ### Concrete scenario states used by the claim theorems, their
witnesses and counterexamples -/

/-- The deferred event used in the concrete C5/C4 scenarios: name `"a"`,
tracked at monotonic time 0 and wall time 0, no duration, no metadata. -/
def sampleSpec : EventSpec := ⟨"a", 0, 0, none, []⟩

/-- A deferred buffer holding one valid event followed by the 5 garbage
bytes `[4, 9, 0, 0, 0]`: a truncated but well-formed prefix (a string
header announcing 9 payload bytes with only 3 available). -/
def truncatedTailMonitor : OptimizedMonitor :=
  { OptimizedMonitor.init 0 0 10 with
    events_buffer := encodeStream [sampleSpec] ++ [4, 9, 0, 0, 0] }

/-- A deferred buffer holding one valid event followed by the 5 garbage
bytes `[9, 9, 9, 9, 9]`, whose first byte is an invalid format tag. -/
def invalidTailMonitor : OptimizedMonitor :=
  { OptimizedMonitor.init 0 0 10 with
    events_buffer := encodeStream [sampleSpec] ++ [9, 9, 9, 9, 9] }

/-- The deferred monitor of the concrete C4 scenario after one tracked
event. -/
def c4base : OptimizedMonitor := (OptimizedMonitor.init 0 0 10).track 0 0 "a" none []

/-- The readable form of the single event of `c4base`. -/
def c4events : List PyVal :=
  [.dict [("event", .scalar (.str "a")), ("timestamp", .scalar (.num 0)),
          ("absolute_timestamp", .scalar (.num 0))]]

/-- `c4base` after its first `get_events()` populated the cache. -/
def c4cached : OptimizedMonitor :=
  { c4base with pending_events := c4events, parse_calls := c4base.parse_calls + 1 }

/-- `c4cached` after a further record call mutates the byte stream. -/
def c4mutated : OptimizedMonitor := c4cached.track 1 1 "b" none []

/-- A deferred monitor holding one tracked event ("job" at time 0),
the concrete failing input for C1. -/
def c1filled : OptimizedMonitor := (OptimizedMonitor.init 0 0 10).track 0 0 "job" none []

/-! ### Round-trip lemmas for the codec -/

theorem strOfNats_strBytes (s : String) : strOfNats (strBytes s) = s := by
  cases s with
  | mk data =>
    simp [strOfNats, strBytes, List.map_map, Function.comp_def, Char.ofNat_toNat]

theorem intDecode_intCode (i : Int) : intDecode (intCode i) = i := by
  cases i with
  | ofNat n =>
    simp [intCode, intDecode, Nat.mul_div_cancel_left, Nat.mul_mod_right]
  | negSucc n =>
    simp [intCode, intDecode, Nat.mul_add_mod]
    omega

theorem ratDecode_ratCode (q : ℚ) : ratDecode (ratCode q) = q := by
  simp [ratCode, ratDecode, Nat.unpair_pair, intDecode_intCode, Rat.mkRat_self]

theorem strBytes_length (s : String) : (strBytes s).length = s.length := by
  cases s with
  | mk data => simp [strBytes, String.length]

/-- Decoding after encoding a scalar returns the scalar and consumes
exactly its encoding, for any continuation of the stream. -/
theorem decScalar_enc (x : PyScalar) (rest : List Nat) :
    decScalar (encScalar x ++ rest) = .ok x (encScalar x).length := by
  cases x with
  | pyNone => simp [encScalar, decScalar]
  | bool b => cases b <;> simp [encScalar, decScalar]
  | int i => simp [encScalar, decScalar, intDecode_intCode]
  | num q => simp [encScalar, decScalar, ratDecode_ratCode]
  | str s =>
    have hlen : (strBytes s).length = s.length := strBytes_length s
    have hle : s.length ≤ (strBytes s ++ rest).length := by simp [hlen]
    have htake : (strBytes s ++ rest).take s.length = strBytes s := by
      rw [← hlen, List.take_left]
    simp [encScalar, decScalar, hle, htake, strOfNats_strBytes, hlen]
    omega

theorem encScalar_length_pos (x : PyScalar) : 1 ≤ (encScalar x).length := by
  cases x <;> simp [encScalar]

/-- Decoding after encoding a flat dict body returns the entries and
consumes exactly their encoding. -/
theorem decFlatEntries_enc (kvs : FlatEntries) (rest : List Nat) :
    decFlatEntries kvs.length (encFlatEntries kvs ++ rest)
      = .ok kvs (encFlatEntries kvs).length := by
  induction kvs generalizing rest with
  | nil => simp [decFlatEntries, encFlatEntries]
  | cons kv tl ih =>
    obtain ⟨k, x⟩ := kv
    have h1 : encFlatEntries ((k, x) :: tl) ++ rest
        = encScalar (.str k) ++ (encScalar x ++ (encFlatEntries tl ++ rest)) := by
      simp [encFlatEntries]
    have h2 : (encScalar (.str k) ++ (encScalar x ++ (encFlatEntries tl ++ rest))).drop
        (encScalar (.str k)).length = encScalar x ++ (encFlatEntries tl ++ rest) :=
      List.drop_left _ _
    have h3 : (encScalar (.str k) ++ (encScalar x ++ (encFlatEntries tl ++ rest))).drop
        ((encScalar (.str k)).length + (encScalar x).length)
        = encFlatEntries tl ++ rest := by
      rw [show encScalar (.str k) ++ (encScalar x ++ (encFlatEntries tl ++ rest))
          = (encScalar (.str k) ++ encScalar x) ++ (encFlatEntries tl ++ rest) by
            simp [List.append_assoc],
        show (encScalar (.str k)).length + (encScalar x).length
          = (encScalar (.str k) ++ encScalar x).length by simp,
        List.drop_left]
    rw [List.length_cons, h1]
    simp only [decFlatEntries, decScalar_enc, h2, h3, ih]
    simp [encFlatEntries]
    omega

/-- Decoding after encoding a dict-member value returns the value and
consumes exactly its encoding. -/
theorem decVal1_enc (v : PyVal1) (rest : List Nat) :
    decVal1 (encVal1 v ++ rest) = .ok v (encVal1 v).length := by
  cases v with
  | scalar x =>
    have h : decVal1 (encScalar x ++ rest)
        = DR.map PyVal1.scalar (decScalar (encScalar x ++ rest)) := by
      cases x <;> simp [encScalar, decVal1]
    show decVal1 (encScalar x ++ rest) = .ok (.scalar x) (encScalar x).length
    rw [h, decScalar_enc]
    rfl
  | dict kvs =>
    show decVal1 (5 :: kvs.length :: (encFlatEntries kvs ++ rest)) = _
    simp [decVal1, decFlatEntries_enc, encVal1]
    omega

/-- Decoding after encoding a top-level dict body returns the entries and
consumes exactly their encoding. -/
theorem decEntries1_enc (kvs : List (String × PyVal1)) (rest : List Nat) :
    decEntries1 kvs.length (encEntries1 kvs ++ rest)
      = .ok kvs (encEntries1 kvs).length := by
  induction kvs generalizing rest with
  | nil => simp [decEntries1, encEntries1]
  | cons kv tl ih =>
    obtain ⟨k, v⟩ := kv
    have h1 : encEntries1 ((k, v) :: tl) ++ rest
        = encScalar (.str k) ++ (encVal1 v ++ (encEntries1 tl ++ rest)) := by
      simp [encEntries1]
    have h2 : (encScalar (.str k) ++ (encVal1 v ++ (encEntries1 tl ++ rest))).drop
        (encScalar (.str k)).length = encVal1 v ++ (encEntries1 tl ++ rest) :=
      List.drop_left _ _
    have h3 : (encScalar (.str k) ++ (encVal1 v ++ (encEntries1 tl ++ rest))).drop
        ((encScalar (.str k)).length + (encVal1 v).length)
        = encEntries1 tl ++ rest := by
      rw [show encScalar (.str k) ++ (encVal1 v ++ (encEntries1 tl ++ rest))
          = (encScalar (.str k) ++ encVal1 v) ++ (encEntries1 tl ++ rest) by
            simp [List.append_assoc],
        show (encScalar (.str k)).length + (encVal1 v).length
          = (encScalar (.str k) ++ encVal1 v).length by simp,
        List.drop_left]
    rw [List.length_cons, h1]
    simp only [decEntries1, decScalar_enc, h2, decVal1_enc, h3, ih]
    simp [encEntries1]
    omega

/-- Decoding after encoding a top-level object returns the object and
consumes exactly its encoding, for any continuation of the stream. -/
theorem decVal_enc (v : PyVal) (rest : List Nat) :
    decVal (encVal v ++ rest) = .ok v (encVal v).length := by
  cases v with
  | scalar x =>
    have h : decVal (encScalar x ++ rest)
        = DR.map PyVal.scalar (decScalar (encScalar x ++ rest)) := by
      cases x <;> simp [encScalar, decVal]
    show decVal (encScalar x ++ rest) = .ok (.scalar x) (encScalar x).length
    rw [h, decScalar_enc]
    rfl
  | dict kvs =>
    show decVal (5 :: kvs.length :: (encEntries1 kvs ++ rest)) = _
    simp [decVal, decEntries1_enc, encVal]
    omega

/-- `unpackb` of a single serialized object succeeds. -/
theorem unpackb_enc (v : PyVal) : unpackb (encVal v) = .ok v := by
  have h := decVal_enc v []
  rw [List.append_nil] at h
  simp [unpackb, h]

/-- `unpackb` of a serialized object followed by trailing bytes fails with
`ExtraData`. -/
theorem unpackb_enc_extra (v : PyVal) (rest : List Nat) (h : rest ≠ []) :
    unpackb (encVal v ++ rest) = .error .extraData := by
  rw [unpackb, decVal_enc v rest]
  have : rest.length ≠ 0 := by
    cases rest with
    | nil => exact absurd rfl h
    | cons a l => simp
  simp only [List.length_append]
  rw [if_neg (by omega)]


/-! ### Claim theorems: context machinery (C7, C8, C10) -/

/-- C7: starting from no active context on one execution unit, after
`activate(A)` then `activate(B)`, restoring with B's token makes
`current()` return A; subsequently restoring with A's token makes
`current()` fail with the NotActive error; and `current()` with no
activation at all fails with NotActive rather than a silent default. -/
theorem paragon_nested_activate_restore (A B : CtxEntry) :
    Paragon.get_context
        (Paragon.reset_context (activate (activate ⟨none, 0⟩ A).2 B).2
          (activate (activate ⟨none, 0⟩ A).2 B).1) = .ok A
  ∧ Paragon.get_context
        (Paragon.reset_context
          (Paragon.reset_context (activate (activate ⟨none, 0⟩ A).2 B).2
            (activate (activate ⟨none, 0⟩ A).2 B).1)
          (activate ⟨none, 0⟩ A).1) = .error .notActive
  ∧ Paragon.get_context ⟨none, 0⟩ = .error .notActive :=
  ⟨rfl, rfl, rfl⟩

/-- C8: for every prior context state and every (session, monitor, report)
triple, entering a bifrost scope and exiting it in any way — the body
returning normally or raising — restores the context active immediately
before entry, performs exactly one restore (with the token captured at
entry), and propagates the body's outcome, including a raised error; the
async variant behaves identically. -/
theorem bifrost_restores_exactly_once {α : Type} (session monitor report : Collab)
    (body : ParagonState → Except PyErr α × ParagonState) (st : ParagonState) :
    (bifrost_sync session monitor report body st).2.context = st.context
  ∧ (bifrost_sync session monitor report body st).1
      = (body (Paragon.set_context st session monitor report).2).1
  ∧ (bifrost_sync session monitor report body st).2.reset_count
      = (body (Paragon.set_context st session monitor report).2).2.reset_count + 1
  ∧ (bifrost_async session monitor report body st).2.context = st.context
  ∧ (bifrost_async session monitor report body st).1
      = (body (Paragon.set_context st session monitor report).2).1
  ∧ (bifrost_async session monitor report body st).2.reset_count
      = (body (Paragon.set_context st session monitor report).2).2.reset_count + 1 :=
  ⟨rfl, rfl, rfl, rfl, rfl, rfl⟩

/-- C10: in `sentinel`, default collaborators for the monitor and report
roles are selected by testing the `session` argument: with a non-`None`
session and `monitor=None` (resp. `report=None`) the activated context
binds the monitor (resp. report) role to Python `None`, never to a fresh
default; a fresh `DefaultMonitor`/`DefaultReport` is created only when
`session` is `None`. -/
theorem sentinel_defaults_keyed_on_session (s : Nat) (m r : Option Nat)
    (sid : Option String) :
    (sentinel (some s) none r sid).monitor = .pyNone
  ∧ (sentinel (some s) m none sid).report = .pyNone
  ∧ (sentinel none m r sid).monitor = .freshMonitor
  ∧ (sentinel none m r sid).report = .freshReport
  ∧ (sentinel (some s) m r sid).monitor ≠ .freshMonitor
  ∧ (sentinel (some s) m r sid).report ≠ .freshReport := by
  refine ⟨rfl, rfl, rfl, rfl, ?_, ?_⟩
  · cases m <;> simp [sentinel, argCollab]
  · cases r <;> simp [sentinel, argCollab]

/-! ### Claim theorems: eager monitor error paths (C2, C3) -/

/-- C2 (code bug): `stop_timer` on a fresh eager monitor with free
capacity does not record a `"<name>_completed"` event — `track` assigns to
`event_record.details`, a field the `EventRecord` NamedTuple does not
have, so the call raises `AttributeError` instead of returning the
duration. -/
theorem stop_timer_raises_attribute_error :
    DefaultMonitor.stop_timer (DefaultMonitor.init 0 10) 5 "job" 2 []
      = .error .attributeError := rfl

/-- C3 (code bug): `get_summary()` on a monitor with zero recorded events
does not succeed: `_count_events_by_type` evaluates `events[-1]` on the
empty list and raises `IndexError`. -/
theorem get_summary_empty_raises_index_error :
    DefaultMonitor.get_summary (DefaultMonitor.init 0 10)
      = .error .indexError := rfl

/-- C6 counterexample: a first `record` call, well within capacity, fails
instead of storing its event when it carries a duration — refuting "for
every sequence of record calls … the first N calls store their events"
already at N = 1. -/
theorem track_with_duration_raises :
    DefaultMonitor.track (DefaultMonitor.init 0 1) 0 "a" (some 1) []
      = .error .attributeError := rfl

/-! ### Parsing lemmas for the deferred buffer -/

theorem decScalar_invalid (b : Nat) (bs : List Nat) (h : 6 ≤ b) :
    decScalar (b :: bs) = .formatError := by
  simp only [decScalar]
  rw [if_neg (by omega), if_neg (by omega), if_neg (by omega), if_neg (by omega),
    if_neg (by omega)]

theorem decVal_invalid (b : Nat) (bs : List Nat) (h : 6 ≤ b) :
    decVal (b :: bs) = .formatError := by
  simp only [decVal]
  rw [if_neg (by omega), decScalar_invalid b bs h]
  rfl

/-- Expanding the compact keys of a serialized event yields exactly the
readable event dict. -/
theorem readableDict_eventEntries (s : EventSpec) :
    readableDict (eventEntries s.event s.elapsed s.wall s.duration s.metadata)
      = readableOf s := by
  obtain ⟨e, el, w, d, m⟩ := s
  cases d <;> cases m <;> rfl

/-- One iteration of the parsing loop on a well-formed serialized object
followed by an arbitrary continuation. -/
theorem parseLoop_step (f : Nat) (kvs : List (String × PyVal1)) (rest : List Nat) :
    parseLoop (f + 1) (encVal (.dict kvs) ++ rest)
      = (parseLoop f rest).map (fun tail => readableDict kvs :: tail) := by
  have hd : decVal (5 :: kvs.length :: (encEntries1 kvs ++ rest))
      = .ok (.dict kvs) (encVal (.dict kvs)).length := by
    have h0 := decVal_enc (.dict kvs) rest
    rw [show encVal (PyVal.dict kvs) ++ rest
        = 5 :: kvs.length :: (encEntries1 kvs ++ rest) from by simp [encVal]] at h0
    exact h0
  have hdrop : (5 :: kvs.length :: (encEntries1 kvs ++ rest)).drop
      (encVal (.dict kvs)).length = rest := by
    have h0 := List.drop_left (encVal (.dict kvs)) rest
    rw [show encVal (PyVal.dict kvs) ++ rest
        = 5 :: kvs.length :: (encEntries1 kvs ++ rest) from by simp [encVal]] at h0
    exact h0
  have hshape : encVal (.dict kvs) ++ rest
      = 5 :: kvs.length :: (encEntries1 kvs ++ rest) := by simp [encVal]
  rw [hshape]
  simp only [parseLoop, OptimizedMonitor.unpack_with_offset, hd,
    OptimizedMonitor.deserialize_to_readable_format, hdrop]
  cases hp : parseLoop f rest <;>
    simp [hp, Except.map, Except.bind, bind]

/-- A serialized event stream with an empty or invalid-leading-byte tail
parses to exactly the readable forms of its events, in order. -/
theorem parseLoop_stream (evs : List EventSpec) (g : List Nat) (fuel : Nat)
    (hfuel : (encodeStream evs ++ g).length ≤ fuel)
    (hg : ∀ b bs2, g = b :: bs2 → 6 ≤ b) :
    parseLoop fuel (encodeStream evs ++ g) = .ok (evs.map readableOf) := by
  induction evs generalizing fuel with
  | nil =>
    cases g with
    | nil => cases fuel <;> rfl
    | cons b bs2 =>
      have hb := hg b bs2 rfl
      obtain ⟨f, rfl⟩ : ∃ f, fuel = f + 1 := by
        refine ⟨fuel - 1, ?_⟩
        simp at hfuel
        omega
      show parseLoop (f + 1) ([] ++ (b :: bs2)) = .ok []
      rw [List.nil_append]
      simp only [parseLoop, OptimizedMonitor.unpack_with_offset,
        decVal_invalid b bs2 hb]
  | cons s tl ih =>
    have hshape : encodeStream (s :: tl) ++ g
        = encVal (.dict (eventEntries s.event s.elapsed s.wall s.duration s.metadata))
            ++ (encodeStream tl ++ g) := by
      simp [encodeStream, encodeEvent, eventData, List.append_assoc]
    have hlen2 : (encVal (.dict (eventEntries s.event s.elapsed s.wall s.duration
        s.metadata))).length
        = 2 + (encEntries1 (eventEntries s.event s.elapsed s.wall s.duration
            s.metadata)).length := by
      simp [encVal]
      omega
    obtain ⟨f, rfl⟩ : ∃ f, fuel = f + 1 := by
      refine ⟨fuel - 1, ?_⟩
      rw [hshape, List.length_append, hlen2] at hfuel
      omega
    rw [hshape, parseLoop_step]
    have hfuel2 : (encodeStream tl ++ g).length ≤ f := by
      rw [hshape, List.length_append, hlen2] at hfuel
      omega
    rw [ih f hfuel2]
    simp [Except.map, readableDict_eventEntries s]

/-- `_parse_buffer` over a serialized event stream with an empty or
invalid-leading-byte tail. -/
theorem parse_buffer_stream (evs : List EventSpec) (g : List Nat)
    (hg : ∀ b bs2, g = b :: bs2 → 6 ≤ b) :
    OptimizedMonitor.parse_buffer (encodeStream evs ++ g)
      = .ok (evs.map readableOf) := by
  cases evs with
  | nil =>
    cases g with
    | nil => rfl
    | cons b bs2 =>
      rw [OptimizedMonitor.parse_buffer, if_neg (by simp)]
      exact parseLoop_stream [] (b :: bs2) _ le_rfl hg
  | cons s tl =>
    have hne : encodeStream (s :: tl) ++ g ≠ [] := by
      simp [encodeStream, encodeEvent, eventData, encVal]
    rw [OptimizedMonitor.parse_buffer, if_neg hne]
    exact parseLoop_stream (s :: tl) g _ le_rfl hg

/-! ### Claim theorems: deferred-buffer serialization (C9, C5) -/

/-- C9: for every event type string, every optional duration and every
metadata mapping, decoding the compact encoding of the single
deferred-buffer event reproduces the event name exactly, the duration
exactly whenever one is present, and the metadata exactly whenever it is
non-empty (and the corresponding readable keys are absent otherwise). -/
theorem event_encode_decode_roundtrip (st : OptimizedMonitor) (e : String)
    (d : Option ℚ) (m : FlatEntries) (now wall : ℚ) :
    Except.map (List.map (fun r =>
        (PyVal.lookup r "event", PyVal.lookup r "duration",
         PyVal.lookup r "metadata")))
      (OptimizedMonitor.parse_buffer (st.serialize_event e d m now wall))
    = .ok [(some (.scalar (.str e)),
            d.map (fun q => PyVal1.scalar (.num q)),
            (match m with
             | [] => none
             | _ :: _ => some (.dict m)))] := by
  have h1 : st.serialize_event e d m now wall
      = encodeStream [⟨e, now - st.start_time, wall, d, m⟩] ++ [] := by
    simp [OptimizedMonitor.serialize_event, encodeStream, encodeEvent]
  rw [h1, parse_buffer_stream [⟨e, now - st.start_time, wall, d, m⟩] []
    (by intro b bs2 hcontra; simp at hcontra)]
  cases d <;> cases m <;> rfl

/-- C5 counterexample: on a buffer of 1 valid event followed by the 5
garbage bytes `[4, 9, 0, 0, 0]`, `get_events()` raises `TypeError`
instead of returning the valid event: the `Unpacker` iteration yields
nothing on the truncated tail, `_unpack_with_offset` falls through and
returns bare `None`, and `event_data, bytes_consumed = None` fails —
refuting the claim for arbitrary garbage. -/
theorem get_events_truncated_tail_raises :
    truncatedTailMonitor.get_events = .error .typeError := rfl

/-- C5 as amended: for every deferred buffer whose byte stream consists of
validly encoded events followed by garbage bytes starting with an invalid
format byte (tag ≥ 6, as msgpack's reserved 0xc1), `get_events()` raises
no error and returns exactly the valid events, in order. -/
theorem get_events_tolerates_invalid_tail (st : OptimizedMonitor)
    (evs : List EventSpec) (b : Nat) (g : List Nat) (hb : 6 ≤ b)
    (hpend : st.pending_events = [])
    (hbuf : st.events_buffer = encodeStream evs ++ (b :: g)) :
    Except.map Prod.fst st.get_events = .ok (evs.map readableOf) := by
  simp only [OptimizedMonitor.get_events, hpend]
  rw [hbuf, parse_buffer_stream evs (b :: g)
    (by intro b2 bs2 h2; injection h2 with h3 h4; omega)]
  rfl

/-- Witness for the amended C5 at a concrete input. -/
theorem get_events_tolerates_invalid_tail_witness :
    (6 ≤ 9) ∧ invalidTailMonitor.pending_events = []
  ∧ invalidTailMonitor.events_buffer = encodeStream [sampleSpec] ++ (9 :: [9, 9, 9, 9])
  ∧ Except.map Prod.fst invalidTailMonitor.get_events
      = .ok ([sampleSpec].map readableOf) :=
  ⟨by omega, rfl, rfl,
    get_events_tolerates_invalid_tail invalidTailMonitor [sampleSpec] 9 [9, 9, 9, 9]
      (by omega) rfl rfl⟩

/-! ### Claim theorems: deferred-buffer memoization (C4) -/

/-- When `get_events` succeeds, the returned state caches exactly the
returned list in `_pending_events`. -/
theorem get_events_pending_of_ok (st : OptimizedMonitor) (evs : List PyVal)
    (st2 : OptimizedMonitor) (h : st.get_events = .ok (evs, st2)) :
    st2.pending_events = evs := by
  cases hp : st.pending_events with
  | nil =>
    simp only [OptimizedMonitor.get_events, hp] at h
    cases hb : OptimizedMonitor.parse_buffer st.events_buffer with
    | ok l =>
      rw [hb] at h
      simp only [Except.bind, bind, Except.ok.injEq, Prod.mk.injEq] at h
      rw [← h.2]
      exact h.1
    | error e =>
      rw [hb] at h
      simp [Except.bind, bind] at h
  | cons p ps =>
    simp only [OptimizedMonitor.get_events, hp, Except.ok.injEq, Prod.mk.injEq] at h
    rw [← h.2, hp]
    exact h.1

/-- `track` never touches the cached `_pending_events`. -/
theorem track_preserves_pending (st : OptimizedMonitor) (now wall : ℚ)
    (e : String) (d : Option ℚ) (m : FlatEntries) :
    (st.track now wall e d m).pending_events = st.pending_events := by
  rw [OptimizedMonitor.track]
  split <;> rfl

/-- With a non-empty cache, `get_events` returns the cache unchanged. -/
theorem get_events_cached (st : OptimizedMonitor) (v : PyVal) (vs : List PyVal)
    (h : st.pending_events = v :: vs) : st.get_events = .ok (v :: vs, st) := by
  simp [OptimizedMonitor.get_events, h]

/-- C4 (as amended): `get_events()` is memoized against the cache, not the
stream — after a successful call returning a non-empty list, a second call
with no intervening mutation returns the same list and the very same state
(hence without re-parsing: the ghost `parse_calls` counter is unchanged);
and after a further `record` call mutates the buffer, the next
`get_events()` still returns the stale cached list, not the events of the
mutated stream. -/
theorem get_events_memoized_and_stale (st : OptimizedMonitor) (evs : List PyVal)
    (st2 : OptimizedMonitor) (now wall : ℚ) (e : String) (d : Option ℚ)
    (m : FlatEntries) (h : st.get_events = .ok (evs, st2)) (hne : evs ≠ []) :
    st2.get_events = .ok (evs, st2)
  ∧ Except.map Prod.fst (OptimizedMonitor.get_events (st2.track now wall e d m))
      = .ok evs := by
  have hp : st2.pending_events = evs := get_events_pending_of_ok st evs st2 h
  obtain ⟨v, vs, rfl⟩ : ∃ v vs, evs = v :: vs := by
    cases evs with
    | nil => exact absurd rfl hne
    | cons v vs => exact ⟨v, vs, rfl⟩
  refine ⟨get_events_cached st2 v vs hp, ?_⟩
  have hp2 : (st2.track now wall e d m).pending_events = v :: vs := by
    rw [track_preserves_pending]
    exact hp
  rw [get_events_cached _ v vs hp2]
  rfl

/-- Witness for C4 at a concrete input. -/
theorem get_events_memoized_and_stale_witness :
    c4base.get_events = .ok (c4events, c4cached)
  ∧ c4events ≠ []
  ∧ (c4cached.get_events = .ok (c4events, c4cached)
     ∧ Except.map Prod.fst
         (OptimizedMonitor.get_events (c4cached.track 1 1 "b" none []))
         = .ok c4events) :=
  ⟨by with_unfolding_all rfl, by simp [c4events],
    get_events_memoized_and_stale c4base c4events c4cached 1 1 "b" none []
      (by with_unfolding_all rfl) (by simp [c4events])⟩

/-- C4 counterexample: after the mutation, the next `get_events()` returns
only the stale cached event, although parsing the mutated stream (as the
claim predicates) yields both events including the newly recorded
`"b"`. -/
theorem get_events_stale_after_mutation :
    Except.map Prod.fst c4mutated.get_events = .ok c4events
  ∧ OptimizedMonitor.parse_buffer c4mutated.events_buffer
      = .ok (c4events ++
          [.dict [("event", .scalar (.str "b")), ("timestamp", .scalar (.num 1)),
                  ("absolute_timestamp", .scalar (.num 1))]]) :=
  ⟨by with_unfolding_all rfl, by with_unfolding_all rfl⟩

/-! ### Claim theorems: eager monitor capacity behaviour (C6) -/

theorem dequeAppend_of_lt (maxlen : Nat) (q : List EventRecord) (x : EventRecord)
    (h : q.length < maxlen) : dequeAppend maxlen q x = q ++ [x] := by
  simp only [dequeAppend, List.length_append, List.length_cons, List.length_nil]
  rw [if_neg (by omega)]

/-- A duration-free `track` at capacity is a silent no-op. -/
theorem track_none_full (st : DefaultMonitor) (now : ℚ) (e : String)
    (m : FlatEntries) (h : st.max_buffer_size ≤ st.event_count) :
    st.track now e none m = .ok st := by
  rw [DefaultMonitor.track, if_pos h]

/-- A duration-free `track` below capacity stores its record. -/
theorem track_none_room (st : DefaultMonitor) (now : ℚ) (e : String)
    (m : FlatEntries) (h : st.event_count < st.max_buffer_size)
    (hq : st.events_metadata.length < st.max_buffer_size) :
    st.track now e none m = .ok
      { st with
        events_buffer := st.events_buffer.set st.event_count (now - st.start_time)
        events_metadata := st.events_metadata ++ [recordOf st.start_time ⟨now, e, m⟩]
        event_count := st.event_count + 1 } := by
  rw [DefaultMonitor.track, if_neg (by omega)]
  simp only [dequeAppend_of_lt _ _ _ hq]
  rfl

/-- Invariant run of a duration-free record sequence: the first
`capacity − count` calls append their records in order, later calls are
dropped, and the bookkeeping fields evolve as stated. -/
theorem runTrack_spec (cs : List RecCall) (st : DefaultMonitor)
    (hlen : st.events_metadata.length = st.event_count)
    (hle : st.event_count ≤ st.max_buffer_size) :
    ∃ st2, runTrack st cs = .ok st2
      ∧ st2.start_time = st.start_time
      ∧ st2.max_buffer_size = st.max_buffer_size
      ∧ st2.metrics = st.metrics
      ∧ st2.event_count = min (st.event_count + cs.length) st.max_buffer_size
      ∧ st2.events_metadata = st.events_metadata
          ++ (cs.take (st.max_buffer_size - st.event_count)).map
              (recordOf st.start_time) := by
  induction cs generalizing st with
  | nil =>
    refine ⟨st, rfl, rfl, rfl, rfl, by simp; omega, by simp⟩
  | cons c cs ih =>
    rcases Nat.lt_or_ge st.event_count st.max_buffer_size with hlt | hge
    · have htr := track_none_room st c.now c.event c.metadata hlt (by omega)
      obtain ⟨st2, hrun, h1, h2, h3, h4, h5⟩ :=
        ih { st with
             events_buffer := st.events_buffer.set st.event_count (c.now - st.start_time)
             events_metadata := st.events_metadata ++ [recordOf st.start_time c]
             event_count := st.event_count + 1 }
          (by simp [hlen]) (by simp; omega)
      refine ⟨st2, ?_, h1, h2, h3, by simp at h4 ⊢; omega, ?_⟩
      · rw [runTrack, htr]
        simpa [Except.bind, bind] using hrun
      · rw [h5]
        simp only []
        rw [show st.max_buffer_size - st.event_count
            = (st.max_buffer_size - (st.event_count + 1)) + 1 from by omega,
          List.take_succ_cons]
        simp [List.append_assoc]
    · have heq : st.event_count = st.max_buffer_size := by omega
      have htr := track_none_full st c.now c.event c.metadata hge
      obtain ⟨st2, hrun, h1, h2, h3, h4, h5⟩ := ih st hlen hle
      refine ⟨st2, ?_, h1, h2, h3, by rw [h4]; omega, ?_⟩
      · rw [runTrack, htr]
        simpa [Except.bind, bind] using hrun
      · rw [h5, show st.max_buffer_size - st.event_count = 0 from by omega]
        simp

/-- With at least one stored event, `_count_events_by_type` succeeds. -/
theorem count_events_by_type_of_ne_nil (st : DefaultMonitor)
    (h : st.events_metadata ≠ []) :
    st.count_events_by_type = .ok (countByType st.events_metadata) := by
  obtain ⟨a, l, hal⟩ := List.exists_cons_of_ne_nil h
  simp [DefaultMonitor.count_events_by_type, DefaultMonitor.get_events, hal,
    List.getLast?_cons]

/-- With at least one stored event and positive capacity, `get_summary`
succeeds and reports `count / capacity`. -/
theorem get_summary_of_ne_nil (st : DefaultMonitor) (h : st.events_metadata ≠ [])
    (hmax : st.max_buffer_size ≠ 0) :
    st.get_summary = .ok
      { total_events := st.events_metadata.length
        total_metrics := st.metrics.length
        events_by_type := countByType st.events_metadata
        metrics := st.metrics
        buffer_usage := (st.event_count : ℚ) / (st.max_buffer_size : ℚ) } := by
  simp [DefaultMonitor.get_summary, count_events_by_type_of_ne_nil st h,
    Except.bind, bind, hmax, DefaultMonitor.get_events]

/-- C6 (as amended): for every eager monitor of capacity N ≥ 1 and every
sequence of duration-free record calls, the first N calls store their
events and `get_events()` returns exactly that sequence (names and
metadata) in order; once the monitor is full, a further record call
returns the state unchanged with no error; and when at least N calls were
made, `get_summary()` succeeds with utilization 1.  (The amendment — no
duration argument, N ≥ 1 — is forced by the `event_record.details`
`AttributeError` and by the empty-summary/zero-division failures.) -/
theorem eager_capacity_sequence (t0 : ℚ) (N : Nat) (cs : List RecCall)
    (hN : 1 ≤ N) :
    ∃ st2, runTrack (DefaultMonitor.init t0 N) cs = .ok st2
      ∧ st2.get_events.map (fun r => (r.etype, r.metadata))
          = (cs.take N).map (fun c => (c.event, c.metadata))
      ∧ st2.event_count = min cs.length N
      ∧ (∀ c : RecCall, N ≤ cs.length →
          st2.track c.now c.event none c.metadata = .ok st2)
      ∧ (N ≤ cs.length → ∃ s, st2.get_summary = .ok s ∧ s.buffer_usage = 1) := by
  obtain ⟨st2, hrun, h1, h2, h3, h4, h5⟩ :=
    runTrack_spec cs (DefaultMonitor.init t0 N) rfl (by simp [DefaultMonitor.init])
  have hmax : st2.max_buffer_size = N := by
    simpa [DefaultMonitor.init] using h2
  have hstart : st2.start_time = t0 := by
    simpa [DefaultMonitor.init] using h1
  have hcount : st2.event_count = min cs.length N := by
    simp [DefaultMonitor.init] at h4
    omega
  have hmeta : st2.events_metadata = (cs.take N).map (recordOf t0) := by
    simpa [DefaultMonitor.init] using h5
  refine ⟨st2, hrun, ?_, hcount, ?_, ?_⟩
  · rw [DefaultMonitor.get_events, hmeta, List.map_map]
    simp [Function.comp_def, recordOf]
  · intro c hlen2
    apply track_none_full
    rw [hmax, hcount]
    omega
  · intro hlen2
    have hc : st2.event_count = N := by omega
    have hne : st2.events_metadata ≠ [] := by
      rw [hmeta]
      intro hnil
      have hlen3 := congrArg List.length hnil
      rw [List.length_map, List.length_take, List.length_nil] at hlen3
      omega
    refine ⟨_, get_summary_of_ne_nil st2 hne (by omega), ?_⟩
    show ((st2.event_count : ℚ) / (st2.max_buffer_size : ℚ)) = 1
    rw [hc, hmax]
    exact div_self (Nat.cast_ne_zero.mpr (by omega))

/-- Witness for the amended C6: capacity 1, two record calls. -/
theorem eager_capacity_sequence_witness :
    (1 ≤ 1)
  ∧ (∃ st2, runTrack (DefaultMonitor.init 0 1) [⟨0, "a", []⟩, ⟨1, "b", []⟩] = .ok st2
      ∧ st2.get_events.map (fun r => (r.etype, r.metadata))
          = ([⟨0, "a", []⟩, ⟨1, "b", []⟩].take 1).map
              (fun c : RecCall => (c.event, c.metadata))
      ∧ st2.event_count = min ([⟨0, "a", []⟩, ⟨1, "b", []⟩] : List RecCall).length 1
      ∧ (∀ c : RecCall, 1 ≤ ([⟨0, "a", []⟩, ⟨1, "b", []⟩] : List RecCall).length →
          st2.track c.now c.event none c.metadata = .ok st2)
      ∧ (1 ≤ ([⟨0, "a", []⟩, ⟨1, "b", []⟩] : List RecCall).length →
          ∃ s, st2.get_summary = .ok s ∧ s.buffer_usage = 1)) :=
  ⟨le_refl 1, eager_capacity_sequence 0 1 [⟨0, "a", []⟩, ⟨1, "b", []⟩] (le_refl 1)⟩

/-! ### Claim theorems: disk round-trip (C1) -/

/-- For any deferred buffer whose serialized stream is non-empty,
`flush_to_disk` followed by `load_from_disk` on the written file fails
with msgpack `ExtraData`: `load_from_disk` hands ALL bytes after the
header — the count record and the raw stream — to a single
`msgpack.unpackb` call. -/
theorem load_after_flush_extra (st : OptimizedMonitor) (h : PyVal)
    (hh : st.buffer_header = encVal h) (hbuf : st.events_buffer ≠ []) :
    ((st.flush_to_disk).2).load_from_disk ((st.flush_to_disk).1)
      = .error .extraData := by
  have hsnd : (st.flush_to_disk).2 = st.clear_buffer := rfl
  have hhdr : (st.clear_buffer).buffer_header = st.buffer_header := rfl
  have hfile : (st.flush_to_disk).1
      = st.buffer_header ++
          (encVal (.dict [("event_count", .scalar (.int st.event_count))])
            ++ st.events_buffer) := by
    simp [OptimizedMonitor.flush_to_disk, List.append_assoc]
  rw [hsnd, hfile]
  simp only [OptimizedMonitor.load_from_disk, hhdr, List.take_left, List.drop_left,
    hh, unpackb_enc, unpackb_enc_extra _ _ hbuf, Except.bind, bind]

/-- C1 (code bug): `flush_to_disk` then `load_from_disk` on a buffer with
one recorded event does not restore the buffer — it raises
`msgpack.ExtraData`, because `load_from_disk` reads the rest of the file
in one `f.read()` and `unpackb` rejects the raw stream trailing the count
record. -/
theorem flush_then_load_raises_extra_data :
    ((c1filled.flush_to_disk).2).load_from_disk ((c1filled.flush_to_disk).1)
      = .error .extraData :=
  load_after_flush_extra c1filled
    (.dict [("version", .scalar (.int 1)), ("created_at", .scalar (.num 0)),
            ("format", .scalar (.str "msgpack"))])
    rfl (by with_unfolding_all decide)
